import Mathlib

/-!
Shallow embedding of the URL safety checker server
(`src/url-safety-checker/server/src/index.js`).

The JavaScript program keeps one process-wide `Map` used as a TTL cache,
queries an external scanning service with a submit-then-poll protocol
(`checkUrlSafety`), follows HTTP redirects manually up to a hop bound
(`checkRedirects`), and exposes a `POST /check-urls` endpoint that fans out
over a batch of URLs and joins the results positionally (`Promise.all` over
`urls.map`).

External behaviour (the scanning service, the target HTTP servers, the URL
parser of the `url` module, and the scheduling of concurrent tasks) is
modelled by explicit environment records that the embedded functions
take as parameters; a thrown JavaScript exception is modelled by
`Except.error` carrying the exception message.  The mutable cache is passed
and returned explicitly; `Date.now()` is an explicit `now : Nat` parameter
(milliseconds).  Fields that a produced JavaScript object may lack
(`positives` on an error result, `message` on a success result) are
`Option`s, with `none` standing for the absent/`undefined` field.
-/

/-- `SafetyResult`: shape of the objects returned by `checkUrlSafety`
(`index.js` lines 36, 46-50, 56, 58).  `positives`/`total_scans` are present
on safe/unsafe results and absent on error results; `message` is present on
error results only. -/
structure SafetyResult where
  status : String
  positives : Option Nat := none
  total_scans : Option Nat := none
  message : Option String := none
deriving DecidableEq

/-- `RedirectResult`: shape of the objects returned by `checkRedirects`
(`index.js` lines 106-119, 128-134). -/
structure RedirectResult where
  status : String
  message : Option String := none
  redirect_chain : List String
  status_codes : List Nat
  final_url_safety : SafetyResult
deriving DecidableEq

/-- A value stored in the process-wide cache `Map`: `checkUrlSafety` stores
`SafetyResult`s under `safety:`-keys and `checkRedirects` stores
`RedirectResult`s under `redirect:`-keys, in the same map. -/
inductive CacheVal where
  | safety (r : SafetyResult)
  | redir (r : RedirectResult)
deriving DecidableEq

/-- Reading a cached value through `checkUrlSafety` (`return cached.data`,
line 24).  In every run of the program a `safety:`-key only ever holds a
`safety` value; the `redir` branch models JavaScript's duck typing, where
the foreign object's `status`/`message` fields are read and the fields a
`RedirectResult` lacks come out `undefined`. -/
def CacheVal.getSafety : CacheVal → SafetyResult
  | .safety r => r
  | .redir r => { status := r.status, message := r.message }

/-- Reading a cached value through `checkRedirects` (`return cached.data`,
line 67).  As with `CacheVal.getSafety`, the `safety` branch is never hit in
a run of the program; it models the duck-typed read, with the absent
list-valued fields rendered as empty lists and the absent
`final_url_safety` as an `undefined` marker. -/
def CacheVal.getRedir : CacheVal → RedirectResult
  | .redir r => r
  | .safety r =>
    { status := r.status, message := r.message, redirect_chain := [],
      status_codes := [], final_url_safety := { status := "undefined" } }

/-- One cache entry, as stored by `cache.set(key, { data, timestamp })`. -/
structure CacheEntry where
  data : CacheVal
  timestamp : Nat
deriving DecidableEq

/-- The process-wide cache `Map` (`index.js` line 8), as an association
list; `cacheSet` on an existing key overwrites it, as `Map.set` does. -/
abbrev Cache := List (String × CacheEntry)

def cacheGet (c : Cache) (k : String) : Option CacheEntry :=
  (c.find? (fun p => p.1 == k)).map (fun p => p.2)

def cacheDelete (c : Cache) (k : String) : Cache :=
  c.filter (fun p => !(p.1 == k))

def cacheSet (c : Cache) (k : String) (e : CacheEntry) : Cache :=
  cacheDelete c k ++ [(k, e)]

/-- `CACHE_TTL = 24 * 60 * 60 * 1000` (line 9): 24 hours in milliseconds. -/
def CACHE_TTL : Nat := 24 * 60 * 60 * 1000

/-- The cache key `` `safety:${url}` `` (line 20). -/
def safetyKey (url : String) : String := "safety:" ++ url

/-- The cache key `` `redirect:${url}` `` (line 63). -/
def redirectKey (url : String) : String := "redirect:" ++ url

/-- The JSON body of one poll response from the scanning service
(`reportResponse.data`, line 44).  Each field may be absent. -/
structure ReportData where
  response_code : Option Int := none
  positives : Option Nat := none
  total : Option Nat := none
deriving DecidableEq

/-- Environment for `checkUrlSafety`: the behaviour of the external
scanning service.  `scan` is the submission POST (line 30): `Except.error`
models a thrown transport/timeout exception, `Except.ok s` a response with
HTTP status `s`.  `poll i` is the `i`-th report GET of the poll loop
(line 40). -/
structure SafetyEnv where
  scan : Except String Nat
  poll : Nat → Except String ReportData

/-- The poll loop of `checkUrlSafety` (`for (let i = 0; i < 5; i++)`,
lines 39-55): issue the `i`-th report request; on a thrown exception
propagate it to the surrounding catch; if `response_code === 1` the report
is complete and is returned; otherwise sleep 1s and try again.  `.ok none`
is the fall-through after the last attempt. -/
def pollLoop (env : SafetyEnv) (i : Nat) : (fuel : Nat) → Except String (Option ReportData)
  | 0 => .ok none
  | fuel + 1 =>
    match env.poll i with
    | .error e => .error e
    | .ok rd =>
      if rd.response_code = some 1 then .ok (some rd)
      else pollLoop env (i + 1) fuel

/-- The body of `checkUrlSafety` after the cache check (the `try` block,
lines 29-59).  Returns the result, the updated cache, and the number of
submission calls made to the scanning service (here always 1). -/
def checkUrlSafetyUncached (env : SafetyEnv) (cache : Cache) (now : Nat) (url : String) :
    SafetyResult × Cache × Nat :=
  match env.scan with
  | .error e => ({ status := "error", message := some e }, cache, 1)
  | .ok s =>
    if s ≠ 200 then
      ({ status := "error", message := some ("API error: " ++ toString s) }, cache, 1)
    else
      match pollLoop env 0 5 with
      | .error e => ({ status := "error", message := some e }, cache, 1)
      | .ok none => ({ status := "error", message := some "No scan results available" }, cache, 1)
      | .ok (some rd) =>
        let result : SafetyResult :=
          { status := if rd.positives = some 0 then "safe" else "unsafe",
            positives := some (rd.positives.getD 0),
            total_scans := some (rd.total.getD 0) }
        (result, cacheSet cache (safetyKey url) ⟨.safety result, now⟩, 1)

/-- `checkUrlSafety` (lines 19-60): cache lookup under `safety:url`; a
fresh entry is returned as-is (no external call), a stale entry is deleted
and the submit/poll cycle runs on the remaining cache. -/
def checkUrlSafety (env : SafetyEnv) (cache : Cache) (now : Nat) (url : String) :
    SafetyResult × Cache × Nat :=
  match cacheGet cache (safetyKey url) with
  | some cached =>
    if now - cached.timestamp < CACHE_TTL then (cached.data.getSafety, cache, 0)
    else checkUrlSafetyUncached env (cacheDelete cache (safetyKey url)) now url
  | none => checkUrlSafetyUncached env cache now url

/-- One HTTP response as seen by the redirect traversal: the status code
and the `Location` header (absent = `none`). -/
structure HttpResp where
  status : Nat
  location : Option String := none
deriving DecidableEq

/-- Environment for `checkRedirects`: the behaviour of the target servers
and of the `URL` constructor.  `respond i u` is the response to the `i`-th
GET of the traversal, issued to URL `u` (`axiosInstance.get`, lines 86
and 93); `Except.error` models a thrown transport/timeout exception.
`resolve loc base` models `new URL(loc, base).toString()` (line 91);
`Except.error` models the `TypeError` thrown on an unparsable location. -/
structure RedirectEnv where
  respond : Nat → String → Except String HttpResp
  resolve : String → String → Except String String

/-- JavaScript truthiness of the `Location` header value
(`response.headers.location`, line 90): an absent header and an empty
string are both falsy. -/
def locTruthy : Option String → Bool
  | none => false
  | some s => s ≠ ""

/-- The manual redirect-following loop (lines 90-95): while the latest
response is a 3xx with a truthy `Location` and `redirectChain.length <= 3`,
resolve the location against the current URL, append it to the chain,
request it, and append its status code.  A thrown exception carries the
message together with the chain and status codes collected so far (which
the caller's catch block discards, line 131).  `fuel` is only a structural
termination bound: the chain starts at length 1 with fuel 4, so fuel is
exhausted strictly after the `chain.length ≤ 3` guard has already stopped
the loop, and the `fuel = 0` branch is never reached from `traversal`. -/
def followRedirects (env : RedirectEnv) (reqIdx : Nat) (currentUrl : String)
    (status : Nat) (location : Option String)
    (chain : List String) (codes : List Nat) :
    (fuel : Nat) → Except (String × List String × List Nat) (List String × List Nat)
  | 0 => .ok (chain, codes)
  | fuel + 1 =>
    if 300 ≤ status ∧ status < 400 ∧ locTruthy location = true ∧ chain.length ≤ 3 then
      match env.resolve (location.getD "") currentUrl with
      | .error e => .error (e, chain, codes)
      | .ok nextUrl =>
        match env.respond reqIdx nextUrl with
        | .error e => .error (e, chain ++ [nextUrl], codes)
        | .ok resp =>
          followRedirects env (reqIdx + 1) nextUrl resp.status resp.location
            (chain ++ [nextUrl]) (codes ++ [resp.status]) fuel
    else .ok (chain, codes)

/-- The whole traversal of the `try` block before classification
(lines 81-95): `redirectChain` starts as `[url]`, the first GET's status
starts `statusCodes`, then the loop runs.  A first-request exception is
thrown before any status code is pushed, so it carries chain `[url]` and
no status codes. -/
def traversal (env : RedirectEnv) (url : String) :
    Except (String × List String × List Nat) (List String × List Nat) :=
  match env.respond 0 url with
  | .error e => .error (e, [url], [])
  | .ok resp => followRedirects env 1 url resp.status resp.location [url] [resp.status] 4

/-- The error result built in the catch block of `checkRedirects`
(lines 128-134): note `redirect_chain` is rebuilt as `[url]`, not the chain
collected before the exception. -/
def redirectErrorResult (url : String) (e : String) : RedirectResult :=
  { status := "error", message := some e, redirect_chain := [url],
    status_codes := [], final_url_safety := { status := "error" } }

/-- The body of `checkRedirects` after the cache check (lines 72-137):
traverse the redirect chain; on an exception return the catch block's
result without caching; otherwise, if at least one redirect occurred, check
the final URL's safety and classify, else build the no-redirect result; in
both non-error cases store the result in the cache. -/
def checkRedirectsUncached (senv : SafetyEnv) (renv : RedirectEnv)
    (cache : Cache) (now : Nat) (url : String) : RedirectResult × Cache :=
  match traversal renv url with
  | .error (e, _, _) => (redirectErrorResult url e, cache)
  | .ok (redirectChain, statusCodes) =>
    if redirectChain.length > 1 then
      let checked := checkUrlSafety senv cache now (redirectChain.getLastD "")
      let finalUrlSafety := checked.1
      let isFinalMalicious :=
        finalUrlSafety.status = "unsafe" ∧ 0 < finalUrlSafety.positives.getD 0
      let result : RedirectResult :=
        { status := if isFinalMalicious then "suspicious" else "clean",
          redirect_chain := redirectChain, status_codes := statusCodes,
          final_url_safety := finalUrlSafety }
      (result, cacheSet checked.2.1 (redirectKey url) ⟨.redir result, now⟩)
    else
      let result : RedirectResult :=
        { status := "clean", redirect_chain := redirectChain,
          status_codes := statusCodes,
          final_url_safety := { status := "no_redirect" } }
      (result, cacheSet cache (redirectKey url) ⟨.redir result, now⟩)

/-- `checkRedirects` (lines 62-138): cache lookup under `redirect:url`; a
fresh entry is returned as-is, a stale entry is deleted and the traversal
runs on the remaining cache. -/
def checkRedirects (senv : SafetyEnv) (renv : RedirectEnv)
    (cache : Cache) (now : Nat) (url : String) : RedirectResult × Cache :=
  match cacheGet cache (redirectKey url) with
  | some cached =>
    if now - cached.timestamp < CACHE_TTL then (cached.data.getRedir, cache)
    else checkRedirectsUncached senv renv (cacheDelete cache (redirectKey url)) now url
  | none => checkRedirectsUncached senv renv cache now url

/-- A JSON value, as far as the `/check-urls` handler can observe one:
`req.body.urls` and the elements of the `urls` array are arbitrary JSON
values.  (An absent `urls` property is modelled by `Option.none` at the
use site.) -/
inductive JsVal where
  | str (s : String)
  | num (n : Int)
  | bool (b : Bool)
  | null
  | arr (elems : List JsVal)

/-- JavaScript truthiness of a JSON value (`!urls`, line 157). -/
def jsTruthy : JsVal → Bool
  | .str s => s ≠ ""
  | .num n => n ≠ 0
  | .bool b => b
  | .null => false
  | .arr _ => true

/-- `Array.isArray` (line 157). -/
def JsVal.isArr : JsVal → Bool
  | .arr _ => true
  | _ => false

/-- The element list of an array value (empty for non-arrays; only read
behind an `isArr` guard). -/
def JsVal.elems : JsVal → List JsVal
  | .arr l => l
  | _ => []

mutual

/-- JavaScript string coercion, as applied by `new URL(url)` to a
non-string argument (line 142). -/
def jsToStr : JsVal → String
  | .str s => s
  | .num n => toString n
  | .bool b => if b then "true" else "false"
  | .null => "null"
  | .arr l => String.intercalate "," (jsToStrList l)

/-- String coercion of each element of an array value. -/
def jsToStrList : List JsVal → List String
  | [] => []
  | v :: vs => jsToStr v :: jsToStrList vs

end

/-- Shape of the object returned by `validateUrlStructure` (lines 140-153):
the valid branch carries `status`/`domain`, the invalid branch carries the
pre-built stub fields. -/
structure StructureResult where
  status : String
  domain : Option String := none
  message : Option String := none
  redirect_chain : Option (List String) := none
  status_codes : Option (List Nat) := none
  final_url_safety : Option SafetyResult := none
deriving DecidableEq

/-- `validateUrlStructure` (lines 140-153).  `parseUrl` models the `URL`
constructor of the `url` module applied to the (string-coerced) candidate:
`some hostname` on success, `none` when it throws. -/
def validateUrlStructure (parseUrl : String → Option String) (url : JsVal) : StructureResult :=
  match parseUrl (jsToStr url) with
  | some host => { status := "valid", domain := some host }
  | none =>
    { status := "invalid", message := some "Invalid URL format",
      redirect_chain := some [jsToStr url], status_codes := some [],
      final_url_safety := some { status := "invalid" } }

/-- One element of the response array of `POST /check-urls`
(lines 165-176, 184). -/
structure UrlCheckResult where
  url : JsVal
  structure' : StructureResult
  safety : SafetyResult
  redirects : RedirectResult

/-- Environment for the batch handler.  `parseUrl` is the `URL`
constructor; `safetyOutcome i` / `redirOutcome i` are the values that task
`i`'s awaited `checkUrlSafety(url)` / `checkRedirects(url)` calls produce
in the run at hand (they absorb the shared-cache and network
nondeterminism of the concurrent tasks, which the handler merely awaits). -/
structure BatchEnv where
  parseUrl : String → Option String
  safetyOutcome : Nat → SafetyResult
  redirOutcome : Nat → RedirectResult

/-- The per-URL async task of the handler (`urls.map(async (url) => ...)`,
lines 162-185): validate the structure; if invalid, return the stub result
without any network call; otherwise compose the awaited safety and
redirect outcomes with the same `url`. -/
def urlTask (env : BatchEnv) (i : Nat) (url : JsVal) : UrlCheckResult :=
  let structure' := validateUrlStructure env.parseUrl url
  if structure'.status = "invalid" then
    { url := url, structure' := structure',
      safety := { status := "error", message := some "Invalid URL" },
      redirects :=
        { status := "error", message := some "Invalid URL",
          redirect_chain := [jsToStr url], status_codes := [],
          final_url_safety := { status := "invalid" } } }
  else
    { url := url, structure' := structure',
      safety := env.safetyOutcome i, redirects := env.redirOutcome i }

/-- `Promise.all` over the mapped tasks (lines 161-186): each task's
result is written into its own positional slot when the task completes;
`schedule` is the order in which the tasks complete.  A slot still `none`
would be an uncompleted task; when `schedule` covers every index (as
`Promise.all` guarantees before resolving), every slot is filled. -/
def promiseAllJoin (n : Nat) (task : Nat → UrlCheckResult) (schedule : List Nat) :
    List (Option UrlCheckResult) :=
  schedule.foldl (fun slots i => slots.set i (some (task i))) (List.replicate n none)

/-- The HTTP response of `POST /check-urls`: either the 400 error body or
the 200 JSON array. -/
inductive BatchResponse where
  | badRequest (error : String)
  | ok (results : List (Option UrlCheckResult))

def BatchResponse.isBadRequest : BatchResponse → Bool
  | .badRequest _ => true
  | .ok _ => false

/-- The `POST /check-urls` handler (lines 155-189): destructure
`req.body.urls` (`none` = property absent); reject with 400 unless it is a
truthy array; otherwise run one task per element and join positionally. -/
def checkBatch (env : BatchEnv) (urls : Option JsVal) (schedule : List Nat) : BatchResponse :=
  match urls with
  | none => .badRequest "Invalid input: URLs must be an array"
  | some v =>
    if jsTruthy v && v.isArr then
      .ok (promiseAllJoin v.elems.length
        (fun i => urlTask env i (v.elems.getD i .null)) schedule)
    else .badRequest "Invalid input: URLs must be an array"

/-- The spec's notion of a well-typed argument to `checkBatch`: a sequence
all of whose elements are strings.  (Stated from the spec's words, for
comparison with the guard the handler actually implements.) -/
def isStringSeq (l : List JsVal) : Bool :=
  l.all (fun v => match v with | .str _ => true | _ => false)

/-- The spec's data-model invariant on `SafetyResult` (§3): `unsafe`
implies `positives > 0` and `safe` implies `positives = 0`.  An absent
`positives` field reads as 0, as JavaScript's `positives || 0` does. -/
def safetyInvariant (r : SafetyResult) : Prop :=
  (r.status = "unsafe" → 0 < r.positives.getD 0) ∧
  (r.status = "safe" → r.positives.getD 0 = 0)

instance (r : SafetyResult) : Decidable (safetyInvariant r) := by
  unfold safetyInvariant; infer_instance

/-- A scanning service whose report completes on the first poll but whose
payload carries no `positives` field at all. -/
def exSenvNoPositives : SafetyEnv :=
  { scan := .ok 200, poll := fun _ => .ok { response_code := some 1 } }

/-- A scanning service whose report completes at once with 3 engines
flagging the URL. -/
def exSenvFlagged : SafetyEnv :=
  { scan := .ok 200,
    poll := fun _ => .ok { response_code := some 1, positives := some 3, total := some 70 } }

/-- A scanning service whose report never completes (`response_code` stays
0 on every poll). -/
def exSenvPending : SafetyEnv :=
  { scan := .ok 200, poll := fun _ => .ok { response_code := some 0 } }

/-- A scanning service whose submission POST throws a timeout. -/
def exSenvDown : SafetyEnv :=
  { scan := .error "timeout of 5000ms exceeded", poll := fun _ => .ok {} }

/-- A target server that 302-redirects the first request to `http://b/`
and then times out on the second request. -/
def exRenvBoom : RedirectEnv :=
  { respond := fun i _ =>
      if i = 0 then .ok { status := 302, location := some "http://b/" }
      else .error "boom",
    resolve := fun loc _ => .ok loc }

/-- A target server that 302-redirects the first request to `http://m/`,
which then answers 200. -/
def exRenvOnce : RedirectEnv :=
  { respond := fun i _ =>
      if i = 0 then .ok { status := 302, location := some "http://m/" }
      else .ok { status := 200 },
    resolve := fun loc _ => .ok loc }

/-- A target server that never redirects. -/
def exRenvPlain : RedirectEnv :=
  { respond := fun _ _ => .ok { status := 200 }, resolve := fun loc _ => .ok loc }

/-- A fresh safety result as cached by a previous completed scan. -/
def exSafeResult : SafetyResult :=
  { status := "safe", positives := some 0, total_scans := some 70 }

/-- A cached redirect result as produced by a previous no-redirect run. -/
def exCleanRedirect : RedirectResult :=
  { status := "clean", redirect_chain := ["http://u/"], status_codes := [200],
    final_url_safety := { status := "no_redirect" } }

/-- A cache holding entries for both keys of `http://u/`, inserted at
time 0. -/
def exCacheBoth : Cache :=
  [(safetyKey "http://u/", ⟨.safety exSafeResult, 0⟩),
   (redirectKey "http://u/", ⟨.redir exCleanRedirect, 0⟩)]

/-- A batch environment: no candidate parses as a URL, and the per-task
outcomes are fixed benign results. -/
def exBenv : BatchEnv :=
  { parseUrl := fun _ => none,
    safetyOutcome := fun _ => { status := "safe", positives := some 0, total_scans := some 1 },
    redirOutcome := fun _ =>
      { status := "clean", redirect_chain := [], status_codes := [],
        final_url_safety := { status := "no_redirect" } } }

/-- A batch environment whose URL parser accepts everything. -/
def exBenvValid : BatchEnv :=
  { exBenv with parseUrl := fun _ => some "host" }

/-- The `RedirectResult` computed for `http://a/` under `exSenvFlagged` and
`exRenvOnce`: one redirect to a URL flagged with 3 positives. -/
def exSuspicious : RedirectResult :=
  { status := "suspicious", redirect_chain := ["http://a/", "http://m/"],
    status_codes := [302, 200],
    final_url_safety := { status := "unsafe", positives := some 3, total_scans := some 70 } }

theorem find?_delete_self (c : Cache) (k : String) :
    (cacheDelete c k).find? (fun p => p.1 == k) = none := by
  rw [List.find?_eq_none]
  intro x hx
  have hk := (List.mem_filter.mp hx).2
  simpa using hk

theorem cacheGet_delete_self (c : Cache) (k : String) :
    cacheGet (cacheDelete c k) k = none := by
  rw [cacheGet, find?_delete_self]; rfl

theorem cacheGet_delete_ne (c : Cache) (k k' : String) (h : k ≠ k') :
    cacheGet (cacheDelete c k) k' = cacheGet c k' := by
  unfold cacheGet cacheDelete
  rw [List.find?_filter]
  have hfun : (fun (a : String × CacheEntry) =>
        decide ((!(a.1 == k)) = true ∧ (a.1 == k') = true)) = (fun a => a.1 == k') := by
    funext a
    by_cases ha : a.1 = k'
    · have hne : k' ≠ k := fun hh => h hh.symm
      simp [ha, hne]
    · simp [ha]
  rw [hfun]

theorem cacheGet_set_self (c : Cache) (k : String) (e : CacheEntry) :
    cacheGet (cacheSet c k e) k = some e := by
  rw [cacheSet, cacheGet, List.find?_append, find?_delete_self]
  simp [List.find?]

theorem checkUrlSafety_miss (env : SafetyEnv) (c : Cache) (now : Nat) (url : String)
    (h : cacheGet c (safetyKey url) = none) :
    checkUrlSafety env c now url = checkUrlSafetyUncached env c now url := by
  unfold checkUrlSafety; rw [h]

theorem checkUrlSafety_stale (env : SafetyEnv) (c : Cache) (now : Nat) (url : String)
    (e : CacheEntry) (h : cacheGet c (safetyKey url) = some e)
    (hs : CACHE_TTL ≤ now - e.timestamp) :
    checkUrlSafety env c now url =
      checkUrlSafetyUncached env (cacheDelete c (safetyKey url)) now url := by
  unfold checkUrlSafety; rw [h]; dsimp only; rw [if_neg (by omega)]

theorem checkUrlSafety_fresh (env : SafetyEnv) (c : Cache) (now : Nat) (url : String)
    (e : CacheEntry) (h : cacheGet c (safetyKey url) = some e)
    (hf : now - e.timestamp < CACHE_TTL) :
    checkUrlSafety env c now url = (e.data.getSafety, c, 0) := by
  unfold checkUrlSafety; rw [h]; dsimp only; rw [if_pos hf]

theorem checkRedirects_miss (senv : SafetyEnv) (renv : RedirectEnv) (c : Cache)
    (now : Nat) (url : String) (h : cacheGet c (redirectKey url) = none) :
    checkRedirects senv renv c now url = checkRedirectsUncached senv renv c now url := by
  unfold checkRedirects; rw [h]

theorem checkRedirects_stale (senv : SafetyEnv) (renv : RedirectEnv) (c : Cache)
    (now : Nat) (url : String) (e : CacheEntry)
    (h : cacheGet c (redirectKey url) = some e) (hs : CACHE_TTL ≤ now - e.timestamp) :
    checkRedirects senv renv c now url =
      checkRedirectsUncached senv renv (cacheDelete c (redirectKey url)) now url := by
  unfold checkRedirects; rw [h]; dsimp only; rw [if_neg (by omega)]

theorem checkRedirects_fresh (senv : SafetyEnv) (renv : RedirectEnv) (c : Cache)
    (now : Nat) (url : String) (e : CacheEntry)
    (h : cacheGet c (redirectKey url) = some e) (hf : now - e.timestamp < CACHE_TTL) :
    checkRedirects senv renv c now url = (e.data.getRedir, c) := by
  unfold checkRedirects; rw [h]; dsimp only; rw [if_pos hf]

theorem checkUrlSafetyUncached_subs (env : SafetyEnv) (c : Cache) (now : Nat) (url : String) :
    (checkUrlSafetyUncached env c now url).2.2 = 1 := by
  unfold checkUrlSafetyUncached
  rcases env.scan with e | s
  · rfl
  · dsimp only
    split
    · rfl
    · rcases pollLoop env 0 5 with e | o
      · rfl
      · rcases o with _ | rd <;> rfl

theorem pollLoop_ok_some (env : SafetyEnv) :
    ∀ (fuel i : Nat) (rd : ReportData), pollLoop env i fuel = .ok (some rd) →
      ∃ j, env.poll j = .ok rd ∧ rd.response_code = some 1 := by
  intro fuel
  induction fuel with
  | zero => intro i rd h; simp [pollLoop] at h
  | succ fuel ih =>
    intro i rd h
    rw [pollLoop] at h
    cases hp : env.poll i with
    | error e => rw [hp] at h; exact absurd h (by simp)
    | ok rd' =>
      simp only [hp] at h
      by_cases hc : rd'.response_code = some 1
      · rw [if_pos hc] at h
        obtain rfl : rd' = rd := by simpa using h
        exact ⟨i, hp, hc⟩
      · rw [if_neg hc] at h
        exact ih (i + 1) rd h

theorem pollLoop_never_complete (env : SafetyEnv) :
    ∀ (fuel i : Nat),
      (∀ j, i ≤ j → j < i + fuel → ∃ rd, env.poll j = .ok rd ∧ rd.response_code ≠ some 1) →
      pollLoop env i fuel = .ok none := by
  intro fuel
  induction fuel with
  | zero => intro i _; rfl
  | succ fuel ih =>
    intro i h
    obtain ⟨rd, hp, hc⟩ := h i (le_refl i) (by omega)
    rw [pollLoop]
    simp only [hp]
    rw [if_neg hc]
    exact ih (i + 1) (fun j hj1 hj2 => h j (by omega) (by omega))

theorem followRedirects_ok_chain_le (env : RedirectEnv) :
    ∀ (fuel reqIdx : Nat) (currentUrl : String) (status : Nat)
      (location : Option String) (chain c2 : List String) (codes s2 : List Nat),
      chain.length ≤ 4 →
      followRedirects env reqIdx currentUrl status location chain codes fuel = .ok (c2, s2) →
      c2.length ≤ 4 := by
  intro fuel
  induction fuel with
  | zero =>
    intro _ _ _ _ chain c2 codes s2 hle h
    obtain ⟨rfl, rfl⟩ : chain = c2 ∧ codes = s2 := by simpa [followRedirects] using h
    exact hle
  | succ fuel ih =>
    intro reqIdx currentUrl status location chain c2 codes s2 hle h
    rw [followRedirects] at h
    by_cases hg : 300 ≤ status ∧ status < 400 ∧ locTruthy location = true ∧ chain.length ≤ 3
    · rw [if_pos hg] at h
      cases hr : env.resolve (location.getD "") currentUrl with
      | error e => rw [hr] at h; exact absurd h (by simp)
      | ok nextUrl =>
        simp only [hr] at h
        cases hq : env.respond reqIdx nextUrl with
        | error e => rw [hq] at h; exact absurd h (by simp)
        | ok resp =>
          simp only [hq] at h
          exact ih _ _ _ _ _ _ _ _ (by simp; omega) h
    · rw [if_neg hg] at h
      obtain ⟨rfl, rfl⟩ : chain = c2 ∧ codes = s2 := by simpa using h
      exact hle

theorem traversal_ok_chain_le (env : RedirectEnv) (url : String)
    (chain : List String) (codes : List Nat)
    (h : traversal env url = .ok (chain, codes)) : chain.length ≤ 4 := by
  rw [traversal] at h
  cases hr : env.respond 0 url with
  | error e => rw [hr] at h; exact absurd h (by simp)
  | ok resp =>
    simp only [hr] at h
    exact followRedirects_ok_chain_le env 4 1 url resp.status resp.location
      [url] chain [resp.status] codes (by simp) h

theorem urlTask_url (env : BatchEnv) (i : Nat) (u : JsVal) :
    (urlTask env i u).url = u := by
  unfold urlTask
  dsimp only
  split <;> rfl

theorem foldl_set_length (task : Nat → UrlCheckResult) :
    ∀ (sched : List Nat) (init : List (Option UrlCheckResult)),
      (sched.foldl (fun slots j => slots.set j (some (task j))) init).length = init.length := by
  intro sched
  induction sched with
  | nil => intro init; rfl
  | cons j rest ih =>
    intro init
    rw [List.foldl_cons, ih, List.length_set]

theorem foldl_set_not_mem (task : Nat → UrlCheckResult) :
    ∀ (sched : List Nat) (init : List (Option UrlCheckResult)) (i : Nat), i ∉ sched →
      (sched.foldl (fun slots j => slots.set j (some (task j))) init)[i]? = init[i]? := by
  intro sched
  induction sched with
  | nil => intro init i _; rfl
  | cons j rest ih =>
    intro init i hi
    have hij : i ≠ j := fun hh => hi (hh ▸ List.mem_cons_self j rest)
    have hrest : i ∉ rest := fun hh => hi (List.mem_cons_of_mem j hh)
    rw [List.foldl_cons, ih _ i hrest, List.getElem?_set_ne (fun hh => hij hh.symm)]

theorem foldl_set_mem (task : Nat → UrlCheckResult) :
    ∀ (sched : List Nat) (init : List (Option UrlCheckResult)) (i : Nat),
      i < init.length → i ∈ sched →
      (sched.foldl (fun slots j => slots.set j (some (task j))) init)[i]? =
        some (some (task i)) := by
  intro sched
  induction sched with
  | nil => intro init i _ hm; exact absurd hm (by simp)
  | cons j rest ih =>
    intro init i hlt hm
    rw [List.foldl_cons]
    by_cases hr : i ∈ rest
    · exact ih _ i (by rw [List.length_set]; exact hlt) hr
    · have hij : i = j := by
        rcases List.mem_cons.mp hm with h | h
        · exact h
        · exact absurd h hr
      subst hij
      rw [foldl_set_not_mem task rest _ i hr,
        List.getElem?_set_eq_of_lt _ hlt]

theorem promiseAllJoin_length (n : Nat) (task : Nat → UrlCheckResult) (sched : List Nat) :
    (promiseAllJoin n task sched).length = n := by
  rw [promiseAllJoin, foldl_set_length, List.length_replicate]

theorem promiseAllJoin_filled (n : Nat) (task : Nat → UrlCheckResult) (sched : List Nat)
    (i : Nat) (hlt : i < n) (hm : i ∈ sched) :
    (promiseAllJoin n task sched)[i]? = some (some (task i)) := by
  rw [promiseAllJoin]
  exact foldl_set_mem task sched _ i (by rw [List.length_replicate]; exact hlt) hm

theorem checkUrlSafetyUncached_invariant (env : SafetyEnv) (c : Cache) (now : Nat)
    (url : String)
    (hpoll : ∀ i rd, env.poll i = Except.ok rd → rd.positives.isSome = true) :
    safetyInvariant (checkUrlSafetyUncached env c now url).1 := by
  unfold checkUrlSafetyUncached
  cases hs : env.scan with
  | error e => simp [safetyInvariant]
  | ok s =>
    dsimp only
    split
    · simp [safetyInvariant]
    · cases hp : pollLoop env 0 5 with
      | error e => simp [safetyInvariant]
      | ok o =>
        cases o with
        | none => simp [safetyInvariant]
        | some rd =>
          obtain ⟨j, hj, _⟩ := pollLoop_ok_some env 5 0 rd hp
          obtain ⟨p, hpv⟩ := Option.isSome_iff_exists.mp (hpoll j rd hj)
          by_cases hz : rd.positives = some 0
          · simp [safetyInvariant, hz]
          · have hpz : p ≠ 0 := fun h0 => hz (by rw [hpv, h0])
            simp [safetyInvariant, hz, hpv]
            omega

/-- C2: for every input URL, every behaviour of the target servers and the
URL parser, and every starting cache and time, the `RedirectResult`
computed by the redirect traversal of `checkRedirects` (the body that runs
on a cache miss or stale entry) satisfies
`len(redirect_chain) - 1 ≤ 3`: the manual traversal never follows more
than 3 hops beyond the origin, even if the live redirect chain is
longer. -/
theorem checkRedirects_hop_bound (senv : SafetyEnv) (renv : RedirectEnv)
    (cache : Cache) (now : Nat) (url : String) :
    (checkRedirectsUncached senv renv cache now url).1.redirect_chain.length - 1 ≤ 3 := by
  unfold checkRedirectsUncached
  cases ht : traversal renv url with
  | error e =>
    obtain ⟨e1, ec, es⟩ := e
    simp [redirectErrorResult]
  | ok p =>
    obtain ⟨chain, codes⟩ := p
    have hle := traversal_ok_chain_le renv url chain codes ht
    dsimp only
    split <;> simp <;> omega

/-- C3 counterexample: a completed report payload with no `positives`
field at all makes `checkUrlSafety` return `status = "unsafe"` with
`positives = 0`, violating the claimed invariant
(`unsafe` implies `positives > 0`). -/
theorem checkUrlSafety_invariant_counterexample :
    (checkUrlSafety exSenvNoPositives [] 0 "http://u/").1.status = "unsafe" ∧
    (checkUrlSafety exSenvNoPositives [] 0 "http://u/").1.positives = some 0 ∧
    ¬ safetyInvariant (checkUrlSafety exSenvNoPositives [] 0 "http://u/").1 := by
  refine ⟨rfl, rfl, by decide⟩

/-- C3 (amended): every `SafetyResult` produced by `checkUrlSafety`
satisfies the data-model invariant (`unsafe` implies `positives > 0`,
`safe` implies `positives = 0`) provided every report payload the scanning
service returns carries a `positives` field, and every value already
cached under the URL's safety key satisfies the invariant.  (Without the
payload proviso the invariant fails: see the counterexample.) -/
theorem checkUrlSafety_invariant (env : SafetyEnv) (cache : Cache) (now : Nat)
    (url : String)
    (hpoll : ∀ i rd, env.poll i = Except.ok rd → rd.positives.isSome = true)
    (hcache : ∀ e, cacheGet cache (safetyKey url) = some e →
      safetyInvariant e.data.getSafety) :
    safetyInvariant (checkUrlSafety env cache now url).1 := by
  unfold checkUrlSafety
  cases hg : cacheGet cache (safetyKey url) with
  | some e =>
    dsimp only
    split
    · exact hcache e hg
    · exact checkUrlSafetyUncached_invariant env _ now url hpoll
  | none => exact checkUrlSafetyUncached_invariant env cache now url hpoll

/-- Witness for the amended C3: a concrete run whose report flags the URL
with 3 positives yields a result satisfying the invariant. -/
theorem checkUrlSafety_invariant_witness :
    safetyInvariant (checkUrlSafety exSenvFlagged [] 0 "http://u/").1 :=
  checkUrlSafety_invariant exSenvFlagged [] 0 "http://u/"
    (fun i rd h => by
      have : rd = { response_code := some 1, positives := some 3, total := some 70 } := by
        cases h; rfl
      rw [this]; rfl)
    (fun e h => by simp [cacheGet, List.find?] at h)

/-- C5: on a cache miss, if the submission succeeds with HTTP 200 but all
5 poll attempts return payloads whose report is not complete, then
`checkUrlSafety` returns `status = "error"` with message
"No scan results available", leaves the cache unchanged (the result is not
written), and a subsequent call for the same URL repeats the full
submit/poll cycle (its submission count is again 1 and it returns the same
error). -/
theorem checkUrlSafety_poll_exhaustion (env : SafetyEnv) (cache : Cache) (now : Nat)
    (url : String)
    (hmiss : cacheGet cache (safetyKey url) = none)
    (hscan : env.scan = .ok 200)
    (hpoll : ∀ i, i < 5 → ∃ rd, env.poll i = .ok rd ∧ rd.response_code ≠ some 1) :
    checkUrlSafety env cache now url =
      ({ status := "error", message := some "No scan results available" }, cache, 1) ∧
    ∀ now2, checkUrlSafety env (checkUrlSafety env cache now url).2.1 now2 url =
      ({ status := "error", message := some "No scan results available" }, cache, 1) := by
  have hone : ∀ t, checkUrlSafety env cache t url =
      ({ status := "error", message := some "No scan results available" }, cache, 1) := by
    intro t
    rw [checkUrlSafety_miss env cache t url hmiss]
    unfold checkUrlSafetyUncached
    rw [hscan]
    dsimp only
    rw [if_neg (by simp)]
    rw [pollLoop_never_complete env 5 0 (fun j hj1 hj2 => hpoll j (by omega))]
  refine ⟨hone now, fun now2 => ?_⟩
  rw [hone now]
  exact hone now2

/-- Witness for C5: with a service whose report never completes, the call
returns the poll-exhaustion error, does not cache it, and a second call
repeats the cycle. -/
theorem checkUrlSafety_poll_exhaustion_witness :
    checkUrlSafety exSenvPending [] 0 "http://u/" =
      ({ status := "error", message := some "No scan results available" }, [], 1) ∧
    ∀ now2, checkUrlSafety exSenvPending
        (checkUrlSafety exSenvPending [] 0 "http://u/").2.1 now2 "http://u/" =
      ({ status := "error", message := some "No scan results available" }, [], 1) :=
  checkUrlSafety_poll_exhaustion exSenvPending [] 0 "http://u/" rfl rfl
    (fun i _ => ⟨{ response_code := some 0 }, rfl, by decide⟩)

theorem checkRedirectsUncached_error (senv : SafetyEnv) (renv : RedirectEnv)
    (cache : Cache) (now : Nat) (url e : String)
    (pchain : List String) (pcodes : List Nat)
    (ht : traversal renv url = .error (e, pchain, pcodes)) :
    checkRedirectsUncached senv renv cache now url = (redirectErrorResult url e, cache) := by
  unfold checkRedirectsUncached
  rw [ht]

theorem checkRedirectsUncached_ok_multi_fst (senv : SafetyEnv) (renv : RedirectEnv)
    (cache : Cache) (now : Nat) (url : String)
    (chain : List String) (codes : List Nat)
    (ht : traversal renv url = .ok (chain, codes)) (hlen : 1 < chain.length) :
    (checkRedirectsUncached senv renv cache now url).1 =
      { status :=
          if (checkUrlSafety senv cache now (chain.getLastD "")).1.status = "unsafe" ∧
              0 < (checkUrlSafety senv cache now (chain.getLastD "")).1.positives.getD 0
            then "suspicious" else "clean",
        redirect_chain := chain, status_codes := codes,
        final_url_safety := (checkUrlSafety senv cache now (chain.getLastD "")).1 } := by
  unfold checkRedirectsUncached
  rw [ht]
  dsimp only
  rw [if_pos hlen]

theorem checkRedirectsUncached_ok_single_fst (senv : SafetyEnv) (renv : RedirectEnv)
    (cache : Cache) (now : Nat) (url : String)
    (chain : List String) (codes : List Nat)
    (ht : traversal renv url = .ok (chain, codes)) (hlen : ¬ 1 < chain.length) :
    (checkRedirectsUncached senv renv cache now url).1 =
      { status := "clean", redirect_chain := chain, status_codes := codes,
        final_url_safety := { status := "no_redirect" } } := by
  unfold checkRedirectsUncached
  rw [ht]
  dsimp only
  rw [if_neg hlen]

/-- C4: for every non-error `RedirectResult` computed by the redirect
traversal of `checkRedirects` (the body that runs on a cache miss or stale
entry), `status = "suspicious"` holds if and only if at least one redirect
occurred (`len(redirect_chain) > 1`) and the final hop's safety result has
status `"unsafe"` with `positives > 0`; in every other non-error case the
status is `"clean"`. -/
theorem checkRedirects_suspicious_iff (senv : SafetyEnv) (renv : RedirectEnv)
    (cache : Cache) (now : Nat) (url : String) (r : RedirectResult)
    (hr : r = (checkRedirectsUncached senv renv cache now url).1)
    (hne : r.status ≠ "error") :
    (r.status = "suspicious" ↔
      1 < r.redirect_chain.length ∧ r.final_url_safety.status = "unsafe" ∧
        0 < r.final_url_safety.positives.getD 0) ∧
    (r.status ≠ "suspicious" → r.status = "clean") := by
  cases ht : traversal renv url with
  | error e =>
    obtain ⟨e1, ec, es⟩ := e
    rw [checkRedirectsUncached_error senv renv cache now url e1 ec es ht] at hr
    subst hr
    exact absurd rfl hne
  | ok p =>
    obtain ⟨chain, codes⟩ := p
    by_cases hlen : 1 < chain.length
    · rw [checkRedirectsUncached_ok_multi_fst senv renv cache now url chain codes ht hlen] at hr
      subst hr
      by_cases hm : (checkUrlSafety senv cache now (chain.getLastD "")).1.status = "unsafe" ∧
          0 < (checkUrlSafety senv cache now (chain.getLastD "")).1.positives.getD 0
      · rw [if_pos hm]
        refine ⟨⟨fun _ => ⟨hlen, hm.1, hm.2⟩, fun _ => rfl⟩, fun h => absurd rfl h⟩
      · rw [if_neg hm]
        refine ⟨⟨fun h => absurd (show ("clean" : String) = "suspicious" from h) (by decide),
          fun h => absurd ⟨h.2.1, h.2.2⟩ hm⟩, fun _ => rfl⟩
    · rw [checkRedirectsUncached_ok_single_fst senv renv cache now url chain codes ht hlen] at hr
      subst hr
      refine ⟨⟨fun h => absurd (show ("clean" : String) = "suspicious" from h) (by decide),
        fun h => absurd h.1 hlen⟩, fun _ => rfl⟩

/-- Witness for C4: a concrete run with one redirect landing on a URL
flagged with 3 positives is classified `suspicious`, and the
classification law holds for its result. -/
theorem checkRedirects_suspicious_iff_witness :
    (exSuspicious.status = "suspicious" ↔
      1 < exSuspicious.redirect_chain.length ∧
      exSuspicious.final_url_safety.status = "unsafe" ∧
      0 < exSuspicious.final_url_safety.positives.getD 0) ∧
    (exSuspicious.status ≠ "suspicious" → exSuspicious.status = "clean") :=
  checkRedirects_suspicious_iff exSenvFlagged exRenvOnce [] 0 "http://a/"
    exSuspicious rfl (by decide)

/-- C6 counterexample: with a server that redirects once and then times
out, the chain collected before the failure is
`["http://a/", "http://b/"]`, but the error result's `redirect_chain` is
rebuilt as `[url]` alone — not the chain collected so far. -/
theorem checkRedirects_error_chain_counterexample :
    traversal exRenvBoom "http://a/" =
      .error ("boom", ["http://a/", "http://b/"], [302]) ∧
    (checkRedirects exSenvPending exRenvBoom [] 0 "http://a/").1.redirect_chain =
      ["http://a/"] ∧
    (["http://a/", "http://b/"] : List String) ≠ ["http://a/"] := by
  refine ⟨rfl, rfl, by decide⟩

/-- C6 (amended): if a transport/parse exception is thrown during the
traversal (modelled by `traversal` returning `.error`), `checkRedirects`
returns the catch block's result — `status = "error"`, the exception
message, `redirect_chain = [url]` (the origin alone, not the chain
collected so far), `status_codes = []`, `final_url_safety.status =
"error"` — and does not write it to the cache. -/
theorem checkRedirects_error_shape (senv : SafetyEnv) (renv : RedirectEnv)
    (cache : Cache) (now : Nat) (url e : String)
    (pchain : List String) (pcodes : List Nat)
    (hmiss : cacheGet cache (redirectKey url) = none)
    (ht : traversal renv url = .error (e, pchain, pcodes)) :
    checkRedirects senv renv cache now url = (redirectErrorResult url e, cache) := by
  rw [checkRedirects_miss senv renv cache now url hmiss]
  unfold checkRedirectsUncached
  rw [ht]

/-- Witness for the amended C6: the concrete redirect-then-timeout server
produces exactly the catch block's error result, with the cache left
empty. -/
theorem checkRedirects_error_shape_witness :
    checkRedirects exSenvPending exRenvBoom [] 0 "http://a/" =
      (redirectErrorResult "http://a/" "boom", []) :=
  checkRedirects_error_shape exSenvPending exRenvBoom [] 0 "http://a/" "boom"
    ["http://a/", "http://b/"] [302] rfl rfl

/-- C7: an entry whose age has reached or exceeded the 24h TTL is never
returned: the next `checkUrlSafety` call for that key behaves exactly as
the same call on the cache with the entry deleted (lazy eviction) and
performs a fresh submit/poll cycle (its submission count is 1), and the
next `checkRedirects` call likewise behaves exactly as a fresh traversal
on the cache with the entry deleted. -/
theorem cache_ttl_expiry (senv : SafetyEnv) (renv : RedirectEnv) (cache : Cache)
    (now : Nat) (url : String) :
    (∀ e, cacheGet cache (safetyKey url) = some e → CACHE_TTL ≤ now - e.timestamp →
      checkUrlSafety senv cache now url =
        checkUrlSafetyUncached senv (cacheDelete cache (safetyKey url)) now url ∧
      (checkUrlSafety senv cache now url).2.2 = 1) ∧
    (∀ e, cacheGet cache (redirectKey url) = some e → CACHE_TTL ≤ now - e.timestamp →
      checkRedirects senv renv cache now url =
        checkRedirectsUncached senv renv (cacheDelete cache (redirectKey url)) now url) := by
  constructor
  · intro e hg hs
    have h1 := checkUrlSafety_stale senv cache now url e hg hs
    refine ⟨h1, ?_⟩
    rw [h1]
    exact checkUrlSafetyUncached_subs senv _ now url
  · intro e hg hs
    exact checkRedirects_stale senv renv cache now url e hg hs

/-- Witness for C7: a cache holding both entries inserted at time 0, read
at `CACHE_TTL + 1`, is evicted on read and both calls recompute. -/
theorem cache_ttl_expiry_witness :
    (checkUrlSafety exSenvFlagged exCacheBoth (CACHE_TTL + 1) "http://u/" =
      checkUrlSafetyUncached exSenvFlagged
        (cacheDelete exCacheBoth (safetyKey "http://u/")) (CACHE_TTL + 1) "http://u/" ∧
    (checkUrlSafety exSenvFlagged exCacheBoth (CACHE_TTL + 1) "http://u/").2.2 = 1) ∧
    checkRedirects exSenvFlagged exRenvPlain exCacheBoth (CACHE_TTL + 1) "http://u/" =
      checkRedirectsUncached exSenvFlagged exRenvPlain
        (cacheDelete exCacheBoth (redirectKey "http://u/")) (CACHE_TTL + 1) "http://u/" := by
  have h := cache_ttl_expiry exSenvFlagged exRenvPlain exCacheBoth (CACHE_TTL + 1) "http://u/"
  exact ⟨h.1 ⟨.safety exSafeResult, 0⟩ rfl (by decide),
    h.2 ⟨.redir exCleanRedirect, 0⟩ rfl (by decide)⟩

/-- C8: while the safety cache entry for a URL is fresh at both call
times, two consecutive `checkUrlSafety` calls return identical results and
perform no external submission at all (so at most one submission occurs
across the two calls). -/
theorem cache_idempotence (env : SafetyEnv) (cache : Cache) (now1 now2 : Nat)
    (url : String) (e : CacheEntry)
    (hg : cacheGet cache (safetyKey url) = some e)
    (h1 : now1 - e.timestamp < CACHE_TTL)
    (h2 : now2 - e.timestamp < CACHE_TTL) :
    (checkUrlSafety env cache now1 url).1 =
      (checkUrlSafety env (checkUrlSafety env cache now1 url).2.1 now2 url).1 ∧
    (checkUrlSafety env cache now1 url).2.2 +
      (checkUrlSafety env (checkUrlSafety env cache now1 url).2.1 now2 url).2.2 = 0 := by
  have hc1 := checkUrlSafety_fresh env cache now1 url e hg h1
  have hc2 := checkUrlSafety_fresh env cache now2 url e hg h2
  rw [hc1]
  dsimp only
  rw [hc2]
  exact ⟨rfl, rfl⟩

/-- Witness for C8: both calls read the fresh entry inserted at time 0
when queried at times 5 and 9. -/
theorem cache_idempotence_witness :
    (checkUrlSafety exSenvFlagged exCacheBoth 5 "http://u/").1 =
      (checkUrlSafety exSenvFlagged
        (checkUrlSafety exSenvFlagged exCacheBoth 5 "http://u/").2.1 9 "http://u/").1 ∧
    (checkUrlSafety exSenvFlagged exCacheBoth 5 "http://u/").2.2 +
      (checkUrlSafety exSenvFlagged
        (checkUrlSafety exSenvFlagged exCacheBoth 5 "http://u/").2.1 9 "http://u/").2.2 = 0 :=
  cache_idempotence exSenvFlagged exCacheBoth 5 9 "http://u/"
    ⟨.safety exSafeResult, 0⟩ rfl (by decide) (by decide)

/-- C1: for every batch accepted by the `/check-urls` handler and every
completion order of the concurrent per-URL tasks (any permutation of the
task indices), the response is the 200 array, it contains exactly one
filled slot per input element, and the `i`-th slot's `url` field equals the
`i`-th input element. -/
theorem checkBatch_order_preserving (env : BatchEnv) (elems : List JsVal)
    (schedule : List Nat)
    (hsched : schedule.Perm (List.range elems.length)) :
    ∃ slots, checkBatch env (some (.arr elems)) schedule = .ok slots ∧
      slots.length = elems.length ∧
      ∀ i, i < elems.length →
        ∃ r, slots[i]? = some (some r) ∧ elems[i]? = some r.url := by
  refine ⟨promiseAllJoin elems.length
    (fun i => urlTask env i (elems.getD i JsVal.null)) schedule, rfl, ?_, ?_⟩
  · exact promiseAllJoin_length elems.length _ schedule
  · intro i hi
    refine ⟨urlTask env i (elems.getD i JsVal.null), ?_, ?_⟩
    · exact promiseAllJoin_filled elems.length _ schedule i hi
        (hsched.mem_iff.mpr (List.mem_range.mpr hi))
    · rw [urlTask_url]
      have h1 : elems[i]? = some elems[i] := List.getElem?_eq_getElem hi
      have h2 : elems.getD i JsVal.null = elems[i] := by
        rw [List.getD_eq_getElem?_getD, h1]
        rfl
      rw [h1, h2]

/-- Witness for C1: a three-element batch whose tasks complete in the
order 2, 0, 1 still yields the slots in input order. -/
theorem checkBatch_order_preserving_witness :
    ∃ slots, checkBatch exBenvValid
        (some (.arr [.str "http://a/", .str "http://b/", .str "http://c/"])) [2, 0, 1] =
        .ok slots ∧
      slots.length = ([JsVal.str "http://a/", .str "http://b/", .str "http://c/"]).length ∧
      ∀ i, i < ([JsVal.str "http://a/", .str "http://b/", .str "http://c/"]).length →
        ∃ r, slots[i]? = some (some r) ∧
          ([JsVal.str "http://a/", .str "http://b/", .str "http://c/"])[i]? = some r.url :=
  checkBatch_order_preserving exBenvValid
    [.str "http://a/", .str "http://b/", .str "http://c/"] [2, 0, 1] (by decide)

/-- C9 counterexample: `[42]` is an array that is not a sequence of
strings, yet the handler accepts it (no 400) and processes it. -/
theorem checkBatch_nonstring_accepted :
    isStringSeq [JsVal.num 42] = false ∧
    (checkBatch exBenv (some (JsVal.arr [JsVal.num 42])) [0]).isBadRequest = false := by
  exact ⟨rfl, rfl⟩

/-- C9 (amended): the handler rejects with
`400 {"error": "Invalid input: URLs must be an array"}` exactly when
`urls` is absent or not an array; every array — regardless of its
elements' types — is accepted and processed. -/
theorem checkBatch_badRequest_iff (env : BatchEnv) (urls : Option JsVal)
    (schedule : List Nat) :
    checkBatch env urls schedule = .badRequest "Invalid input: URLs must be an array" ↔
      ∀ l, urls ≠ some (JsVal.arr l) := by
  cases urls with
  | none =>
    simp only [checkBatch]
    constructor
    · intro _ l h
      exact Option.noConfusion h
    · intro _
      trivial
  | some v =>
    cases v with
    | arr l =>
      constructor
      · intro h
        exact absurd h (by simp [checkBatch, jsTruthy, JsVal.isArr])
      · intro h
        exact absurd rfl (h l)
    | str sv =>
      constructor
      · intro _ l h
        simp at h
      · intro _
        by_cases he : sv = ""
        · subst he; rfl
        · simp [checkBatch, jsTruthy, JsVal.isArr, he]
    | num n =>
      constructor
      · intro _ l h
        simp at h
      · intro _
        by_cases hz : n = 0
        · subst hz; rfl
        · simp [checkBatch, jsTruthy, JsVal.isArr, hz]
    | bool b =>
      constructor
      · intro _ l h
        simp at h
      · intro _
        cases b <;> rfl
    | null =>
      constructor
      · intro _ l h
        simp at h
      · intro _
        rfl

/-- C10: when the traversal completes without throwing, at least one
redirect occurred, and the safety check of the final hop returns an error
result (for example after poll exhaustion), `checkRedirects` builds the
composite result — `status = "clean"` with the error embedded as
`final_url_safety` — and stores it in the cache stamped with the current
time, so every later `checkRedirects` call for that URL within the 24h
TTL (under any environment) is served the embedded error from the cache
instead of retrying the safety check. -/
theorem checkRedirects_caches_embedded_error (senv : SafetyEnv) (renv : RedirectEnv)
    (cache : Cache) (now : Nat) (url : String)
    (chain : List String) (codes : List Nat)
    (hmiss : cacheGet cache (redirectKey url) = none)
    (ht : traversal renv url = .ok (chain, codes))
    (hlen : 1 < chain.length)
    (herr : (checkUrlSafety senv cache now (chain.getLastD "")).1.status = "error") :
    ∃ result : RedirectResult,
      checkRedirects senv renv cache now url =
        (result, cacheSet (checkUrlSafety senv cache now (chain.getLastD "")).2.1
          (redirectKey url) ⟨.redir result, now⟩) ∧
      result.status = "clean" ∧
      result.final_url_safety = (checkUrlSafety senv cache now (chain.getLastD "")).1 ∧
      result.final_url_safety.status = "error" ∧
      ∀ (senv2 : SafetyEnv) (renv2 : RedirectEnv) (now2 : Nat), now2 - now < CACHE_TTL →
        checkRedirects senv2 renv2
            (cacheSet (checkUrlSafety senv cache now (chain.getLastD "")).2.1
              (redirectKey url) ⟨.redir result, now⟩) now2 url =
          (result,
            cacheSet (checkUrlSafety senv cache now (chain.getLastD "")).2.1
              (redirectKey url) ⟨.redir result, now⟩) := by
  have hm : ¬((checkUrlSafety senv cache now (chain.getLastD "")).1.status = "unsafe" ∧
      0 < (checkUrlSafety senv cache now (chain.getLastD "")).1.positives.getD 0) := by
    rintro ⟨hu, _⟩
    rw [herr] at hu
    exact absurd hu (by decide)
  refine ⟨{ status := "clean", redirect_chain := chain, status_codes := codes,
            final_url_safety := (checkUrlSafety senv cache now (chain.getLastD "")).1 },
    ?_, rfl, rfl, herr, ?_⟩
  · rw [checkRedirects_miss senv renv cache now url hmiss]
    unfold checkRedirectsUncached
    rw [ht]
    dsimp only
    rw [if_pos hlen, if_neg hm]
  · intro senv2 renv2 now2 hf
    have hs := checkRedirects_fresh senv2 renv2
      (cacheSet (checkUrlSafety senv cache now (chain.getLastD "")).2.1
        (redirectKey url)
        ⟨.redir { status := "clean", redirect_chain := chain, status_codes := codes,
                  final_url_safety := (checkUrlSafety senv cache now (chain.getLastD "")).1 },
         now⟩)
      now2 url _ (cacheGet_set_self _ _ _) (by simpa using hf)
    rw [hs]
    rfl

/-- Witness for C10: one redirect to `http://m/` whose safety submission
times out; the clean result embedding the error is cached and replayed
within the TTL. -/
theorem checkRedirects_caches_embedded_error_witness :
    ∃ result : RedirectResult,
      checkRedirects exSenvDown exRenvOnce [] 0 "http://a/" =
        (result, cacheSet (checkUrlSafety exSenvDown [] 0
            ((["http://a/", "http://m/"] : List String).getLastD "")).2.1
          (redirectKey "http://a/") ⟨.redir result, 0⟩) ∧
      result.status = "clean" ∧
      result.final_url_safety = (checkUrlSafety exSenvDown [] 0
        ((["http://a/", "http://m/"] : List String).getLastD "")).1 ∧
      result.final_url_safety.status = "error" ∧
      ∀ (senv2 : SafetyEnv) (renv2 : RedirectEnv) (now2 : Nat), now2 - 0 < CACHE_TTL →
        checkRedirects senv2 renv2
            (cacheSet (checkUrlSafety exSenvDown [] 0
                ((["http://a/", "http://m/"] : List String).getLastD "")).2.1
              (redirectKey "http://a/") ⟨.redir result, 0⟩) now2 "http://a/" =
          (result,
            cacheSet (checkUrlSafety exSenvDown [] 0
                ((["http://a/", "http://m/"] : List String).getLastD "")).2.1
              (redirectKey "http://a/") ⟨.redir result, 0⟩) :=
  checkRedirects_caches_embedded_error exSenvDown exRenvOnce [] 0 "http://a/"
    ["http://a/", "http://m/"] [302, 200] rfl rfl (by decide) rfl
